import Mathlib

/-!
Shallow embedding of `src/util/FileIO.py` (microbiomeHD data-ingestion module)
and proofs about its documented behaviour.

The module's functions are translated one-for-one:
* `read_yaml`'s per-entry loop body becomes `resolve_entry` (the Python code
  mutates each registry entry inside a `for` loop; `read_yaml` maps it over
  the registry).
* `read_dataset_files` is modelled on the parsed content of the two clean
  files: the pandas index-dtype inference (`index.dtype != 'O'`) and the
  re-read with `dtype=str` become `inferIndex` / `fixIndex` over the raw
  cell text of the first column.
* `get_classes`, `get_samples`, `get_dataset_ids` and `read_dfdict_data`
  are direct translations; Python exceptions (`KeyError`, `IndexError`,
  `ValueError`) become `Except.error`.

Filesystem effects (opening files, `os.path.realpath` symlink resolution)
are outside the embedding: the functions take the parsed file content as
arguments, and `realpath` is the identity on the constructed path string.
-/

namespace FileIO

/-- A parsed metadata table: a row index (the sample IDs, as the raw text of
the first column) and named columns, each aligned with the index. -/
structure MetaTable where
  index : List String
  cols : List (String × List String)
deriving DecidableEq, Repr

/-- Column lookup, `meta[c]` in pandas: the first column with that name,
`none` when the table has no such column (pandas raises `KeyError`). -/
def MetaTable.getCol (m : MetaTable) (c : String) : Option (List String) :=
  (m.cols.find? (fun p => p.1 = c)).map Prod.snd

/-- The hard-coded control vocabulary of `get_classes`. -/
def controls : List String := ["H", "nonCDI", "nonGVHD", "nonIBD"]

/-- The hard-coded disease vocabulary of `get_classes`. -/
def diseases : List String :=
  ["ASD", "CD", "CDI", "CIRR", "CRC", "EDD", "GVHD", "HIV",
   "MHE", "NASH", "OB", "PAR", "PSA", "RA", "T1D", "T2D", "UC"]

/-- `get_classes(meta)`: read `meta['DiseaseState']` (KeyError when the
column is absent), take the distinct values (`list(set(...))`, modelled by
`List.dedup`; the sentences proved below are order-insensitive), and keep
those in each hard-coded vocabulary. -/
def get_classes (meta : MetaTable) : Except String (List (List String)) :=
  match meta.getCol "DiseaseState" with
  | none => .error "KeyError: DiseaseState"
  | some vals =>
    let labels := vals.dedup
    .ok [labels.filter (fun i => controls.contains i),
         labels.filter (fun j => diseases.contains j)]

/-- `get_samples(meta, classes_list)`: the index values of the rows whose
`DiseaseState` value is in `classes_list[0]` resp. `classes_list[1]`.
`meta['DiseaseState']` is evaluated first (KeyError when absent); indexing a
too-short `classes_list` is Python's `IndexError`. -/
def get_samples (meta : MetaTable) (classes_list : List (List String)) :
    Except String (List (List String)) :=
  match meta.getCol "DiseaseState" with
  | none => .error "KeyError: DiseaseState"
  | some vals =>
    match classes_list with
    | c0 :: c1 :: _ =>
      let rows := meta.index.zip vals
      .ok [(rows.filter (fun p => c0.contains p.2)).map Prod.fst,
           (rows.filter (fun p => c1.contains p.2)).map Prod.fst]
    | _ => .error "IndexError: classes_list"

/-- Python `s.split('.')[0]`: the part of `s` before the first dot, the
whole string when it has no dot. -/
def firstDotPart (s : String) : String :=
  String.mk (s.toList.takeWhile (fun c => c ≠ '.'))

/-- One registry entry of the yaml file, with the fields the module reads or
writes. `none` models a key absent from the entry's dict (`'k' not in data`).
Further free-form keys (such as `condition`) are carried through untouched by
the Python loop and are not modelled. -/
structure Entry where
  folder : Option String := none
  otu_table : Option String := none
  metadata_file : Option String := none
  summary_file : Option String := none
  region : Option String := none
  sequencer : Option String := none
  disease_label : Option String := none
  table_type : Option String := none
  year : Option String := none
deriving DecidableEq, Repr

/-- `os.path.join(a, b)` for one extra component: `b` when `b` is absolute
or `a` is empty, plain concatenation when `a` already ends in a separator,
otherwise `a ++ "/" ++ b`. -/
def pjoin (a b : String) : String :=
  if b.toList.head? = some '/' then b
  else if a = "" then b
  else if a.toList.getLast? = some '/' then a ++ b
  else a ++ "/" ++ b

/-- `os.path.realpath`: resolves the path against the filesystem (current
directory, symlinks). The embedding has no filesystem, so this is the
identity on the constructed path string. -/
def realpath (p : String) : String := p

/-- Characters of `s` strictly before its last underscore, `none` when `s`
has no underscore. -/
def rsplitLeftAux : List Char → Option (List Char)
  | [] => none
  | c :: cs =>
    match rsplitLeftAux cs with
    | some rest => some (c :: rest)
    | none => if c = '_' then some [] else none

/-- Python `s.rsplit('_', 1)[0]`: the part before the last underscore, the
whole string when it has none. -/
def rsplitLeft (s : String) : String :=
  match rsplitLeftAux s.toList with
  | some l => String.mk l
  | none => s

/-- The derived OTU-table path of lines 63-67:
`folderpath/RDP/<folder minus suffix>.otu_table.100.denovo.rdp_assigned`. -/
def otuPath (batch_data_dir folder : String) : String :=
  realpath (pjoin (pjoin (pjoin batch_data_dir folder) "RDP")
    (rsplitLeft folder ++ ".otu_table.100.denovo.rdp_assigned"))

/-- The derived metadata path of lines 77-80:
`folderpath/<folder minus suffix>.metadata.txt`. -/
def metaPath (batch_data_dir folder : String) : String :=
  realpath (pjoin (pjoin batch_data_dir folder) (rsplitLeft folder ++ ".metadata.txt"))

/-- Lines 58-69 of `FileIO.py`: fill `otu_table` from `folder` when absent,
`ValueError` when both are missing. -/
def resolveOtu (batch_data_dir dataset : String) (e : Entry) : Except String Entry :=
  match e.otu_table with
  | some _ => .ok e
  | none =>
    match e.folder with
    | some folder => .ok { e with otu_table := some (otuPath batch_data_dir folder) }
    | none =>
      .error ("No OTU table or results folder specified for dataset " ++ dataset)

/-- Lines 72-82 of `FileIO.py`: fill `metadata_file` from `folder` when
absent, `ValueError` when both are missing. -/
def resolveMetadata (batch_data_dir dataset : String) (e : Entry) : Except String Entry :=
  match e.metadata_file with
  | some _ => .ok e
  | none =>
    match e.folder with
    | some folder => .ok { e with metadata_file := some (metaPath batch_data_dir folder) }
    | none =>
      .error ("No metadata file or results folder specified for dataset " ++ dataset)

/-- Lines 85-94 of `FileIO.py`: fill `summary_file` from `folder` when
absent; when both are missing this only prints a message (returned here as a
warning string) and leaves the field unset. -/
def resolveSummary (batch_data_dir dataset : String) (e : Entry) : Entry × List String :=
  match e.summary_file with
  | some _ => (e, [])
  | none =>
    match e.folder with
    | some folder =>
      let folderpath := pjoin batch_data_dir folder
      ({ e with summary_file := some (realpath (pjoin folderpath "summary_file.txt")) }, [])
    | none =>
      (e, ["No summary file or results folder specified for dataset " ++ dataset])

/-- Lines 97-112 of `FileIO.py`: defaults for the remaining fields. -/
def applyDefaults (e : Entry) : Entry :=
  let e := match e.region with | some _ => e | none => { e with region := some "unk" }
  let e := match e.sequencer with | some _ => e | none => { e with sequencer := some "unk" }
  let e := match e.disease_label with
           | some _ => e | none => { e with disease_label := some "DiseaseState" }
  let e := match e.table_type with
           | some _ => e | none => { e with table_type := some "classic" }
  match e.year with | some _ => e | none => { e with year := some "unk" }

/-- The body of `read_yaml`'s per-dataset loop (lines 53-112): resolve the
three paths, then apply the defaults. A raised `ValueError` aborts; the
summary-file message is collected as a non-fatal warning. -/
def resolve_entry (batch_data_dir dataset : String) (e : Entry) :
    Except String (Entry × List String) :=
  match resolveOtu batch_data_dir dataset e with
  | .error s => .error s
  | .ok e1 =>
    match resolveMetadata batch_data_dir dataset e1 with
    | .error s => .error s
    | .ok e2 =>
      let (e3, w) := resolveSummary batch_data_dir dataset e2
      .ok (applyDefaults e3, w)

/-- `read_yaml` over the parsed registry (an association list of dataset IDs
and entries): resolve every entry; the first raised error aborts the call. -/
def read_yaml (batch_data_dir : String) :
    List (String × Entry) → Except String (List (String × Entry) × List String)
  | [] => .ok ([], [])
  | (d, e) :: rest =>
    match resolve_entry batch_data_dir d e with
    | .error s => .error s
    | .ok (e', w) =>
      match read_yaml batch_data_dir rest with
      | .error s => .error s
      | .ok (rest', ws) => .ok ((d, e') :: rest', w ++ ws)

/-- `get_dataset_ids(clean_folder)` on the directory's file listing:
deduplicated before-first-dot parts, kept when both
`<id>.otu_table.clean` and `<id>.metadata.clean` are present. -/
def get_dataset_ids (files : List String) : List String :=
  let datasets := (files.map firstDotPart).dedup
  datasets.filter (fun d =>
    files.contains (d ++ ".otu_table.clean") &&
    files.contains (d ++ ".metadata.clean"))

/-- A clean TSV file as parsed: a header row and data rows, each row a list
of cell texts; the first cell of each row is the index column. -/
structure CleanFile where
  header : List String
  rows : List (List String)
deriving DecidableEq, Repr

/-- The raw text of the file's first column (the sample IDs). -/
def CleanFile.indexCells (f : CleanFile) : List String :=
  f.rows.map (fun r => r.headD "")

/-- Whether pandas infers a numeric dtype for a cell: an optionally signed
decimal literal (digits with at most one point, at least one digit). -/
def isPyNumeric (s : String) : Bool :=
  let l := match s.toList with
    | '+' :: r => r
    | '-' :: r => r
    | r => r
  match l.splitOn '.' with
  | [a] => !a.isEmpty && a.all Char.isDigit
  | [a, b] => (!a.isEmpty || !b.isEmpty) && a.all Char.isDigit && b.all Char.isDigit
  | _ => false

/-- A pandas row index: either object ('O') dtype holding the cell text, or
an inferred numeric dtype. The numeric constructor keeps the raw cell text
only to record which cells were parsed; `read_dataset_files` replaces it
before returning. -/
inductive PdIndex where
  | strIdx : List String → PdIndex
  | numIdx : List String → PdIndex
deriving DecidableEq, Repr

/-- `pd.read_csv(..., index_col=0)` dtype inference on the index column:
numeric when the column is non-empty and every cell parses as a number,
object dtype otherwise. -/
def inferIndex (cells : List String) : PdIndex :=
  if !cells.isEmpty && cells.all isPyNumeric then .numIdx cells else .strIdx cells

/-- `index.dtype != 'O'` is false exactly on the object branch. -/
def PdIndex.dtypeIsObject : PdIndex → Bool
  | .strIdx _ => true
  | .numIdx _ => false

/-- Lines 127-131 of `FileIO.py` for one table: when the inferred index is
not object dtype, re-read the file with `dtype=str` and take its first
column (the raw cell text) as the index. -/
def fixIndex (cells : List String) : PdIndex :=
  let idx := inferIndex cells
  if idx.dtypeIsObject then idx else .strIdx cells

/-- `read_dataset_files(datasetid, clean_folder)` on the parsed content of
`<id>.otu_table.clean` and `<id>.metadata.clean`: the row index of each
returned table, after the string coercion. -/
def read_dataset_files (otu meta : CleanFile) : PdIndex × PdIndex :=
  (fixIndex otu.indexCells, fixIndex meta.indexCells)

/-- One dataset's bundle in the dict built by `read_dfdict_data`. The
abundance table type `α` is abstract: `raw2abun` is an external collaborator
(imported from `util`, outside this module). -/
structure Bundle (α : Type) where
  df : α
  meta : MetaTable
  dis_smpls : List String
  H_smpls : List String
  classes : List (List String)

/-- The body of `read_dfdict_data`'s loop for one dataset (lines 208-218):
load, normalize, classify, validate the two groups non-empty, partition.
`load` stands for `read_dataset_files` returning the parsed tables. -/
def processDataset {α : Type} (raw2abun : α → α) (load : String → α × MetaTable)
    (dataset : String) : Except String (Bundle α) :=
  let (df0, meta) := load dataset
  let df := raw2abun df0
  match get_classes meta with
  | .error s => .error s
  | .ok classes_list =>
    match classes_list with
    | c0 :: c1 :: _ =>
      if c0.length = 0 || c1.length = 0 then
        .error ("Something wrong with " ++ dataset ++ " metadata.")
      else
        match get_samples meta classes_list with
        | .error s => .error s
        | .ok samples =>
          match samples with
          | [h, dis] =>
            .ok { df := df, meta := meta, dis_smpls := dis,
                  H_smpls := h, classes := classes_list }
          | _ => .error "ValueError: unpacking"
    | _ => .error "IndexError: classes_list"

/-- The loop of `read_dfdict_data` over a list of dataset IDs: a raised
error aborts the whole call, discarding everything accumulated so far. -/
def readDfdictLoop {α : Type} (raw2abun : α → α) (load : String → α × MetaTable) :
    List String → Except String (List (String × Bundle α))
  | [] => .ok []
  | d :: ds =>
    match processDataset raw2abun load d with
    | .error s => .error s
    | .ok b =>
      match readDfdictLoop raw2abun load ds with
      | .error s => .error s
      | .ok rest => .ok ((d, b) :: rest)

/-- `read_dfdict_data(datadir)`: scan the directory listing for dataset IDs
and process each in turn; `load` gives each dataset's parsed tables. -/
def read_dfdict_data {α : Type} (raw2abun : α → α) (files : List String)
    (load : String → α × MetaTable) : Except String (List (String × Bundle α)) :=
  readDfdictLoop raw2abun load (get_dataset_ids files)

/-! ## Theorems -/

/-- The two hard-coded vocabularies share no label. -/
lemma controls_disjoint_diseases : ∀ x, x ∈ controls → x ∉ diseases := by
  intro x hx
  fin_cases hx <;> decide

/-- **C1**: on any metadata table with a disease-state column, `get_classes`
returns `[matched_controls, matched_diseases]`: each list is duplicate-free
and holds exactly the column's values lying in the respective hard-coded
vocabulary; a value in neither vocabulary appears in neither list, and no
error is raised. -/
theorem get_classes_matches_vocabulary (meta : MetaTable) (vals : List String)
    (h : meta.getCol "DiseaseState" = some vals) :
    ∃ c d, get_classes meta = .ok [c, d] ∧ c.Nodup ∧ d.Nodup ∧
      (∀ x, x ∈ c ↔ x ∈ vals ∧ x ∈ controls) ∧
      (∀ x, x ∈ d ↔ x ∈ vals ∧ x ∈ diseases) ∧
      (∀ x, x ∈ vals → x ∉ controls → x ∉ diseases → x ∉ c ∧ x ∉ d) := by
  unfold get_classes
  rw [h]
  refine ⟨_, _, rfl, (vals.nodup_dedup).filter _, (vals.nodup_dedup).filter _,
    ?_, ?_, ?_⟩
  · intro x
    simp [List.mem_filter, List.mem_dedup, List.elem_iff]
  · intro x
    simp [List.mem_filter, List.mem_dedup, List.elem_iff]
  · intro x _ hc hd
    constructor <;> · intro hx
                      simp [List.mem_filter, List.mem_dedup, List.elem_iff] at hx
                      tauto

/-- Closed instance of C1 on the spec's example metadata. -/
theorem get_classes_matches_vocabulary_witness :
    ∃ c d,
      get_classes { index := ["s1", "s2", "s3", "s4"],
                    cols := [("DiseaseState", ["H", "CD", "UC", "Unknown"])] } =
        .ok [c, d] ∧ c.Nodup ∧ d.Nodup ∧
      (∀ x, x ∈ c ↔ x ∈ ["H", "CD", "UC", "Unknown"] ∧ x ∈ controls) ∧
      (∀ x, x ∈ d ↔ x ∈ ["H", "CD", "UC", "Unknown"] ∧ x ∈ diseases) ∧
      (∀ x, x ∈ ["H", "CD", "UC", "Unknown"] →
        x ∉ controls → x ∉ diseases → x ∉ c ∧ x ∉ d) :=
  get_classes_matches_vocabulary _ _ rfl

/-- **C9**: the two lists returned by `get_classes` are disjoint, because
the hard-coded control and disease vocabularies share no label. -/
theorem get_classes_lists_disjoint (meta : MetaTable) (c d : List String)
    (h : get_classes meta = .ok [c, d]) : ∀ x, x ∈ c → x ∉ d := by
  unfold get_classes at h
  cases hg : meta.getCol "DiseaseState" with
  | none => rw [hg] at h; exact absurd h (by simp)
  | some vals =>
    rw [hg] at h
    simp only [Except.ok.injEq, List.cons.injEq, and_true] at h
    intro x hx hxd
    rw [← h.1] at hx
    rw [← h.2] at hxd
    simp only [List.mem_filter, List.elem_iff] at hx hxd
    exact controls_disjoint_diseases x hx.2 hxd.2

/-- Closed instance of C9: the control label `H` is not among the matched
diseases. -/
theorem get_classes_lists_disjoint_witness : ("H" : String) ∉ ["CD", "UC"] :=
  get_classes_lists_disjoint
    { index := ["s1", "s2", "s3", "s4"],
      cols := [("DiseaseState", ["H", "CD", "UC", "Unknown"])] }
    ["H"] ["CD", "UC"] (by rfl) "H" (by decide)

/-- **C10**: `get_classes` and `get_samples` read the column literally named
`DiseaseState` (their Lean counterparts, like the Python ones, take no
`disease_label` argument at all); on a table without that column both raise
a lookup error, whatever other columns the table has. -/
theorem diseasestate_column_hardcoded (meta : MetaTable) (cl : List (List String))
    (h : meta.getCol "DiseaseState" = none) :
    (∃ e, get_classes meta = .error e) ∧ (∃ e, get_samples meta cl = .error e) := by
  exact ⟨⟨"KeyError: DiseaseState", by simp [get_classes, h]⟩,
         ⟨"KeyError: DiseaseState", by simp [get_samples, h]⟩⟩

/-- Closed instance of C10: a table whose disease-state data sits in a
column named `disease_status` still raises. -/
theorem diseasestate_column_hardcoded_witness :
    (∃ e, get_classes { index := ["s1"], cols := [("disease_status", ["H"])] } =
      .error e) ∧
    (∃ e, get_samples { index := ["s1"], cols := [("disease_status", ["H"])] }
      [["H"], ["CD"]] = .error e) :=
  diseasestate_column_hardcoded _ _ rfl

/-- **C6**: `get_samples` returns `[control_sample_ids, disease_sample_ids]`:
exactly the index values of rows whose disease-state value lies in the
control label list, resp. the disease label list; a row matching neither
list appears in neither output. -/
theorem get_samples_partitions (meta : MetaTable) (vals c0 c1 : List String)
    (rest : List (List String)) (h : meta.getCol "DiseaseState" = some vals) :
    ∃ hs ds, get_samples meta (c0 :: c1 :: rest) = .ok [hs, ds] ∧
      (∀ s, s ∈ hs ↔ ∃ p, p ∈ meta.index.zip vals ∧ p.1 = s ∧ p.2 ∈ c0) ∧
      (∀ s, s ∈ ds ↔ ∃ p, p ∈ meta.index.zip vals ∧ p.1 = s ∧ p.2 ∈ c1) := by
  unfold get_samples
  rw [h]
  refine ⟨_, _, rfl, ?_, ?_⟩ <;>
    · intro s
      simp only [List.mem_map, List.mem_filter, List.elem_iff]
      constructor
      · rintro ⟨p, ⟨hp, hm⟩, hs⟩
        exact ⟨p, hp, hs, hm⟩
      · rintro ⟨p, hp, hs, hm⟩
        exact ⟨p, ⟨hp, hm⟩, hs⟩

/-- Closed instance of C6 on the spec's example. -/
theorem get_samples_partitions_witness :
    ∃ hs ds,
      get_samples { index := ["s1", "s2", "s3"],
                    cols := [("DiseaseState", ["H", "CD", "Unknown"])] }
        [["H"], ["CD"]] = .ok [hs, ds] ∧
      (∀ s, s ∈ hs ↔ ∃ p, p ∈ (["s1", "s2", "s3"].zip ["H", "CD", "Unknown"]) ∧
        p.1 = s ∧ p.2 ∈ ["H"]) ∧
      (∀ s, s ∈ ds ↔ ∃ p, p ∈ (["s1", "s2", "s3"].zip ["H", "CD", "Unknown"]) ∧
        p.1 = s ∧ p.2 ∈ ["CD"]) :=
  get_samples_partitions _ _ _ _ _ rfl

/-- **C7**: `get_dataset_ids` is duplicate-free and contains exactly the
before-first-dot parts `d` of the directory's file names for which both
`<d>.otu_table.clean` and `<d>.metadata.clean` are present; on the spec's
example listing it returns exactly `["A"]`. -/
theorem get_dataset_ids_spec (files : List String) :
    (get_dataset_ids files).Nodup ∧
    (∀ d, d ∈ get_dataset_ids files ↔
      ((∃ f ∈ files, firstDotPart f = d) ∧
       (d ++ ".otu_table.clean") ∈ files ∧ (d ++ ".metadata.clean") ∈ files)) ∧
    get_dataset_ids ["A.otu_table.clean", "A.metadata.clean", "B.otu_table.clean"] =
      ["A"] := by
  refine ⟨((files.map firstDotPart).nodup_dedup).filter _, ?_, by rfl⟩
  intro d
  simp only [get_dataset_ids, List.mem_filter, List.mem_dedup, List.mem_map,
    Bool.and_eq_true, List.elem_iff]

/-- The string coercion of lines 127-131: whatever dtype pandas inferred,
the returned index is object dtype holding the raw cell text. -/
lemma fixIndex_eq_strIdx (cells : List String) : fixIndex cells = .strIdx cells := by
  by_cases hc : (!cells.isEmpty && cells.all isPyNumeric) = true
  · simp [fixIndex, inferIndex, hc, PdIndex.dtypeIsObject]
  · simp [fixIndex, inferIndex, hc, PdIndex.dtypeIsObject]

/-- **C3**: `read_dataset_files` always returns string-typed row indices
equal to the raw first-column text of each file, including when every
sample ID is numeric-looking; in particular a pair written with IDs
`1001`, `1002` loads with string index `["1001", "1002"]`. -/
theorem read_dataset_files_string_index (otu meta : CleanFile) :
    read_dataset_files otu meta =
      (.strIdx otu.indexCells, .strIdx meta.indexCells) ∧
    read_dataset_files
      { header := ["", "otu1"], rows := [["1001", "5"], ["1002", "7"]] }
      { header := ["", "DiseaseState"], rows := [["1001", "H"], ["1002", "CD"]] } =
      (.strIdx ["1001", "1002"], .strIdx ["1001", "1002"]) := by
  exact ⟨by simp [read_dataset_files, fixIndex_eq_strIdx], rfl⟩

/-- What `applyDefaults` does to each field: the three paths and the folder
are untouched, and each remaining field becomes its explicit value when
present, its default otherwise. -/
lemma applyDefaults_spec (e : Entry) :
    (applyDefaults e).folder = e.folder ∧
    (applyDefaults e).otu_table = e.otu_table ∧
    (applyDefaults e).metadata_file = e.metadata_file ∧
    (applyDefaults e).summary_file = e.summary_file ∧
    (applyDefaults e).region = some (e.region.getD "unk") ∧
    (applyDefaults e).sequencer = some (e.sequencer.getD "unk") ∧
    (applyDefaults e).disease_label = some (e.disease_label.getD "DiseaseState") ∧
    (applyDefaults e).table_type = some (e.table_type.getD "classic") ∧
    (applyDefaults e).year = some (e.year.getD "unk") := by
  obtain ⟨fo, ot, mf, sf, rg, sq, dl, tt, yr⟩ := e
  cases rg <;> cases sq <;> cases dl <;> cases tt <;> cases yr <;>
    exact ⟨rfl, rfl, rfl, rfl, rfl, rfl, rfl, rfl, rfl⟩

/-- `resolveOtu` on success: every other field untouched, and an explicit
`otu_table` kept as is. -/
lemma resolveOtu_ok (d n : String) {e e1 : Entry}
    (h : resolveOtu d n e = .ok e1) :
    e1.folder = e.folder ∧ e1.metadata_file = e.metadata_file ∧
    e1.summary_file = e.summary_file ∧ e1.region = e.region ∧
    e1.sequencer = e.sequencer ∧ e1.disease_label = e.disease_label ∧
    e1.table_type = e.table_type ∧ e1.year = e.year ∧
    (∀ v, e.otu_table = some v → e1.otu_table = some v) := by
  unfold resolveOtu at h
  cases ho : e.otu_table with
  | some v =>
    rw [ho] at h
    simp only [Except.ok.injEq] at h
    subst h
    simp [ho]
  | none =>
    rw [ho] at h
    cases hf : e.folder with
    | some f =>
      rw [hf] at h
      simp only [Except.ok.injEq] at h
      subst h
      simp [ho]
    | none =>
      rw [hf] at h
      exact absurd h (by simp)

/-- `resolveMetadata` on success: every other field untouched, and an
explicit `metadata_file` kept as is. -/
lemma resolveMetadata_ok (d n : String) {e e1 : Entry}
    (h : resolveMetadata d n e = .ok e1) :
    e1.folder = e.folder ∧ e1.otu_table = e.otu_table ∧
    e1.summary_file = e.summary_file ∧ e1.region = e.region ∧
    e1.sequencer = e.sequencer ∧ e1.disease_label = e.disease_label ∧
    e1.table_type = e.table_type ∧ e1.year = e.year ∧
    (∀ v, e.metadata_file = some v → e1.metadata_file = some v) := by
  unfold resolveMetadata at h
  cases ho : e.metadata_file with
  | some v =>
    rw [ho] at h
    simp only [Except.ok.injEq] at h
    subst h
    simp [ho]
  | none =>
    rw [ho] at h
    cases hf : e.folder with
    | some f =>
      rw [hf] at h
      simp only [Except.ok.injEq] at h
      subst h
      simp [ho]
    | none =>
      rw [hf] at h
      exact absurd h (by simp)

/-- `resolveSummary`: every other field untouched, and an explicit
`summary_file` kept as is. -/
lemma resolveSummary_pair (d n : String) {e e3 : Entry} {w : List String}
    (h : resolveSummary d n e = (e3, w)) :
    e3.folder = e.folder ∧ e3.otu_table = e.otu_table ∧
    e3.metadata_file = e.metadata_file ∧ e3.region = e.region ∧
    e3.sequencer = e.sequencer ∧ e3.disease_label = e.disease_label ∧
    e3.table_type = e.table_type ∧ e3.year = e.year ∧
    (∀ v, e.summary_file = some v → e3.summary_file = some v) := by
  unfold resolveSummary at h
  cases ho : e.summary_file with
  | some v =>
    rw [ho] at h
    simp only [Prod.mk.injEq] at h
    rw [← h.1]
    simp [ho]
  | none =>
    rw [ho] at h
    cases hf : e.folder with
    | some f =>
      rw [hf] at h
      simp only [Prod.mk.injEq] at h
      rw [← h.1]
      simp [ho, hf]
    | none =>
      rw [hf] at h
      simp only [Prod.mk.injEq] at h
      rw [← h.1]
      simp [ho, hf]

/-- **C8**: explicitly present fields survive resolution unchanged; absent
non-path fields get their documented defaults. -/
theorem resolve_entry_frame (dir name : String) (e e' : Entry) (w : List String)
    (h : resolve_entry dir name e = .ok (e', w)) :
    (∀ v, e.otu_table = some v → e'.otu_table = some v) ∧
    (∀ v, e.metadata_file = some v → e'.metadata_file = some v) ∧
    (∀ v, e.summary_file = some v → e'.summary_file = some v) ∧
    (∀ v, e.region = some v → e'.region = some v) ∧
    (∀ v, e.sequencer = some v → e'.sequencer = some v) ∧
    (∀ v, e.disease_label = some v → e'.disease_label = some v) ∧
    (∀ v, e.table_type = some v → e'.table_type = some v) ∧
    (∀ v, e.year = some v → e'.year = some v) ∧
    (e.region = none → e'.region = some "unk") ∧
    (e.sequencer = none → e'.sequencer = some "unk") ∧
    (e.disease_label = none → e'.disease_label = some "DiseaseState") ∧
    (e.table_type = none → e'.table_type = some "classic") ∧
    (e.year = none → e'.year = some "unk") := by
  unfold resolve_entry at h
  cases h1 : resolveOtu dir name e with
  | error s =>
    rw [h1] at h
    dsimp only at h
    exact absurd h (by simp)
  | ok e1 =>
    rw [h1] at h
    dsimp only at h
    cases h2 : resolveMetadata dir name e1 with
    | error s =>
      rw [h2] at h
      dsimp only at h
      exact absurd h (by simp)
    | ok e2 =>
      rw [h2] at h
      dsimp only at h
      rcases h3 : resolveSummary dir name e2 with ⟨e3, w3⟩
      rw [h3] at h
      dsimp only at h
      simp only [Except.ok.injEq, Prod.mk.injEq] at h
      obtain ⟨he', -⟩ := h
      subst he'
      obtain ⟨o1, o2, o3, o4, o5, o6, o7, o8, o9⟩ := resolveOtu_ok dir name h1
      obtain ⟨m1, m2, m3, m4, m5, m6, m7, m8, m9⟩ := resolveMetadata_ok dir name h2
      obtain ⟨s1, s2, s3, s4, s5, s6, s7, s8, s9⟩ := resolveSummary_pair dir name h3
      obtain ⟨a1, a2, a3, a4, a5, a6, a7, a8, a9⟩ := applyDefaults_spec e3
      refine ⟨?_, ?_, ?_, ?_, ?_, ?_, ?_, ?_, ?_, ?_, ?_, ?_, ?_⟩
      · intro v hv
        rw [a2, s2, m2]
        exact o9 v hv
      · intro v hv
        rw [a3, s3]
        exact m9 v (o2 ▸ hv)
      · intro v hv
        rw [a4]
        exact s9 v (m3 ▸ o3 ▸ hv)
      · intro v hv
        rw [a5, s4, m4, o4, hv]
        rfl
      · intro v hv
        rw [a6, s5, m5, o5, hv]
        rfl
      · intro v hv
        rw [a7, s6, m6, o6, hv]
        rfl
      · intro v hv
        rw [a8, s7, m7, o7, hv]
        rfl
      · intro v hv
        rw [a9, s8, m8, o8, hv]
        rfl
      · intro hv
        rw [a5, s4, m4, o4, hv]
        rfl
      · intro hv
        rw [a6, s5, m5, o5, hv]
        rfl
      · intro hv
        rw [a7, s6, m6, o6, hv]
        rfl
      · intro hv
        rw [a8, s7, m7, o7, hv]
        rfl
      · intro hv
        rw [a9, s8, m8, o8, hv]
        rfl

/-- Closed instance of C8: an entry with every field explicit passes
through unchanged except the recorded warnings list being empty. -/
theorem resolve_entry_frame_witness :
    (∀ v, (some "o" : Option String) = some v → (some "o" : Option String) = some v) ∧
    (∀ v, (some "m" : Option String) = some v → (some "m" : Option String) = some v) ∧
    (∀ v, (some "s" : Option String) = some v → (some "s" : Option String) = some v) ∧
    (∀ v, (some "V4" : Option String) = some v → (some "V4" : Option String) = some v) ∧
    (∀ v, (some "454" : Option String) = some v → (some "454" : Option String) = some v) ∧
    (∀ v, (some "DiseaseState" : Option String) = some v →
      (some "DiseaseState" : Option String) = some v) ∧
    (∀ v, (some "normal" : Option String) = some v →
      (some "normal" : Option String) = some v) ∧
    (∀ v, (some "2013" : Option String) = some v →
      (some "2013" : Option String) = some v) ∧
    ((some "V4" : Option String) = none → (some "V4" : Option String) = some "unk") ∧
    ((some "454" : Option String) = none → (some "454" : Option String) = some "unk") ∧
    ((some "DiseaseState" : Option String) = none →
      (some "DiseaseState" : Option String) = some "DiseaseState") ∧
    ((some "normal" : Option String) = none →
      (some "normal" : Option String) = some "classic") ∧
    ((some "2013" : Option String) = none →
      (some "2013" : Option String) = some "unk") :=
  resolve_entry_frame "base" "ds1"
    { folder := some "f", otu_table := some "o", metadata_file := some "m",
      summary_file := some "s", region := some "V4", sequencer := some "454",
      disease_label := some "DiseaseState", table_type := some "normal",
      year := some "2013" }
    { folder := some "f", otu_table := some "o", metadata_file := some "m",
      summary_file := some "s", region := some "V4", sequencer := some "454",
      disease_label := some "DiseaseState", table_type := some "normal",
      year := some "2013" }
    [] (by rfl)

/-- **C5**: with neither `folder` nor an explicit path, a missing
`otu_table` or `metadata_file` raises the configuration error, while a
missing `summary_file` only records a warning, stays unset, and resolution
completes. -/
theorem missing_folder_behaviour (dir name : String) (e : Entry) :
    (e.otu_table = none → e.folder = none →
      resolve_entry dir name e =
        .error ("No OTU table or results folder specified for dataset " ++ name)) ∧
    (∀ v, e.otu_table = some v → e.metadata_file = none → e.folder = none →
      resolve_entry dir name e =
        .error ("No metadata file or results folder specified for dataset " ++ name)) ∧
    (∀ v w, e.otu_table = some v → e.metadata_file = some w →
      e.summary_file = none → e.folder = none →
      ∃ e', resolve_entry dir name e =
          .ok (e', ["No summary file or results folder specified for dataset " ++ name]) ∧
        e'.summary_file = none) := by
  refine ⟨?_, ?_, ?_⟩
  · intro h1 h2
    simp [resolve_entry, resolveOtu, h1, h2]
  · intro v h1 h2 h3
    simp [resolve_entry, resolveOtu, resolveMetadata, h1, h2, h3]
  · intro v w h1 h2 h3 h4
    refine ⟨applyDefaults e, ?_, ?_⟩
    · simp [resolve_entry, resolveOtu, resolveMetadata, resolveSummary, h1, h2, h3, h4]
    · rw [(applyDefaults_spec e).2.2.2.1, h3]

/-- Closed instance of C5 at a concrete pathless entry. -/
theorem missing_folder_behaviour_witness :
    resolve_entry "base" "ds1" ({} : Entry) =
      .error ("No OTU table or results folder specified for dataset " ++ "ds1") ∧
    resolve_entry "base" "ds1" { otu_table := some "o" } =
      .error ("No metadata file or results folder specified for dataset " ++ "ds1") ∧
    ∃ e', resolve_entry "base" "ds1" { otu_table := some "o", metadata_file := some "m" } =
        .ok (e', ["No summary file or results folder specified for dataset " ++ "ds1"]) ∧
      e'.summary_file = none :=
  ⟨(missing_folder_behaviour "base" "ds1" ({} : Entry)).1 rfl rfl,
   (missing_folder_behaviour "base" "ds1" { otu_table := some "o" }).2.1 "o" rfl rfl rfl,
   (missing_folder_behaviour "base" "ds1"
      { otu_table := some "o", metadata_file := some "m" }).2.2 "o" "m" rfl rfl rfl rfl⟩

lemma toList_append (a b : String) : (a ++ b).toList = a.toList ++ b.toList :=
  String.data_append a b

lemma toList_ne_nil {a : String} (h : a ≠ "") : a.toList ≠ [] := by
  intro hd
  exact h (String.ext hd)

lemma append_ne_empty {a : String} (b : String) (h : a ≠ "") : a ++ b ≠ "" := by
  intro he
  have : (a ++ b).toList = [] := by rw [he]; rfl
  rw [toList_append] at this
  exact toList_ne_nil h (List.append_eq_nil.mp this).1

lemma getLast?_append_str (a : String) {b : String} (hb : b ≠ "") :
    (a ++ b).toList.getLast? = b.toList.getLast? := by
  rw [toList_append]
  exact List.getLast?_append_of_ne_nil _ (toList_ne_nil hb)

/-- `os.path.join` concatenates with a single separator in the common case:
left part non-empty and not ending in `/`, right part not starting in `/`. -/
lemma pjoin_eq {a b : String} (ha : a ≠ "") (ha2 : a.toList.getLast? ≠ some '/')
    (hb : b.toList.head? ≠ some '/') : pjoin a b = a ++ "/" ++ b := by
  unfold pjoin
  rw [if_neg hb, if_neg ha, if_neg ha2]

lemma rsplitLeftAux_none : ∀ {l : List Char}, rsplitLeftAux l = none → '_' ∉ l := by
  intro l
  induction l with
  | nil => intro _; simp
  | cons c cs ih =>
    intro h
    unfold rsplitLeftAux at h
    cases haux : rsplitLeftAux cs with
    | some rest => rw [haux] at h; simp at h
    | none =>
      rw [haux] at h
      by_cases hc : c = '_'
      · simp [hc] at h
      · simp only [List.mem_cons]
        rintro (h1 | h1)
        · exact hc h1.symm
        · exact ih haux h1

lemma rsplitLeftAux_some : ∀ {l p : List Char}, rsplitLeftAux l = some p →
    ∃ suf, l = p ++ '_' :: suf ∧ '_' ∉ suf := by
  intro l
  induction l with
  | nil => intro p h; simp [rsplitLeftAux] at h
  | cons c cs ih =>
    intro p h
    unfold rsplitLeftAux at h
    cases haux : rsplitLeftAux cs with
    | some rest =>
      rw [haux] at h
      simp only [Option.some.injEq] at h
      obtain ⟨suf, heq, hn⟩ := ih haux
      refine ⟨suf, ?_, hn⟩
      rw [← h, heq]
      rfl
    | none =>
      rw [haux] at h
      by_cases hc : c = '_'
      · subst hc
        rw [if_pos rfl] at h
        injection h with h
        subst h
        exact ⟨cs, rfl, rsplitLeftAux_none haux⟩
      · simp [hc] at h

/-- A folder name with no underscore passes through `rsplit` unchanged. -/
lemma rsplitLeft_no_underscore {f : String} (h : '_' ∉ f.toList) :
    rsplitLeft f = f := by
  unfold rsplitLeft
  cases haux : rsplitLeftAux f.toList with
  | none => rfl
  | some p =>
    obtain ⟨suf, heq, -⟩ := rsplitLeftAux_some haux
    exact absurd (by rw [heq]; simp : '_' ∈ f.toList) h

/-- A folder name with an underscore splits at its last one: the kept part
is everything before an underscore whose suffix holds no further one. -/
lemma rsplitLeft_underscore {f : String} (h : '_' ∈ f.toList) :
    ∃ suf, f.toList = (rsplitLeft f).toList ++ '_' :: suf ∧ '_' ∉ suf := by
  unfold rsplitLeft
  cases haux : rsplitLeftAux f.toList with
  | none => exact absurd h (rsplitLeftAux_none haux)
  | some p =>
    obtain ⟨suf, heq, hn⟩ := rsplitLeftAux_some haux
    exact ⟨suf, heq, hn⟩

/-- The kept part of the split starts with the folder's own first character
(or is empty), so it cannot introduce a leading `/`. -/
lemma rsplitLeft_head (f : String) :
    (rsplitLeft f).toList = [] ∨ (rsplitLeft f).toList.head? = f.toList.head? := by
  unfold rsplitLeft
  cases haux : rsplitLeftAux f.toList with
  | none => right; rfl
  | some p =>
    cases hl : f.toList with
    | nil => rw [hl] at haux; simp [rsplitLeftAux] at haux
    | cons c cs =>
      rw [hl] at haux
      unfold rsplitLeftAux at haux
      cases haux2 : rsplitLeftAux cs with
      | some rest =>
        rw [haux2] at haux
        simp only [Option.some.injEq] at haux
        right
        rw [← haux]
        rfl
      | none =>
        rw [haux2] at haux
        by_cases hc : c = '_'
        · subst hc
          rw [if_pos rfl] at haux
          injection haux with haux
          left
          rw [← haux]
          rfl
        · simp [hc] at haux

lemma fname_head_ne_slash {f : String} (sfx : String)
    (hf1 : f.toList.head? ≠ some '/') (hs : sfx.toList.head? ≠ some '/') :
    (rsplitLeft f ++ sfx).toList.head? ≠ some '/' := by
  rw [toList_append]
  cases hrl : (rsplitLeft f).toList with
  | nil => simpa using hs
  | cons c cs =>
    rw [List.head?_append_of_ne_nil _ (by simp [hrl])]
    rcases rsplitLeft_head f with h0 | h0
    · rw [h0] at hrl; cases hrl
    · rw [hrl] at h0
      rw [h0]
      exact hf1

/-- The OTU-table path built from a folder, flattened to the documented
template. -/
lemma otu_path_eq {dir f : String} (hd0 : dir ≠ "")
    (hd1 : dir.toList.getLast? ≠ some '/') (hf0 : f ≠ "")
    (hf1 : f.toList.head? ≠ some '/') (hf2 : f.toList.getLast? ≠ some '/') :
    pjoin (pjoin (pjoin dir f) "RDP")
      (rsplitLeft f ++ ".otu_table.100.denovo.rdp_assigned") =
    dir ++ "/" ++ f ++ "/RDP/" ++ rsplitLeft f ++
      ".otu_table.100.denovo.rdp_assigned" := by
  have e1 : pjoin dir f = dir ++ "/" ++ f := pjoin_eq hd0 hd1 hf1
  have hA : dir ++ "/" ++ f ≠ "" := append_ne_empty _ (append_ne_empty _ hd0)
  have hAlast : (dir ++ "/" ++ f).toList.getLast? ≠ some '/' := by
    rw [getLast?_append_str _ hf0]
    exact hf2
  have e2 : pjoin (dir ++ "/" ++ f) "RDP" = dir ++ "/" ++ f ++ "/" ++ "RDP" :=
    pjoin_eq hA hAlast (by decide)
  have hB : dir ++ "/" ++ f ++ "/" ++ "RDP" ≠ "" :=
    append_ne_empty _ (append_ne_empty _ hA)
  have hBlast : (dir ++ "/" ++ f ++ "/" ++ "RDP").toList.getLast? ≠ some '/' := by
    rw [getLast?_append_str _ (by decide : ("RDP" : String) ≠ "")]
    decide
  have e3 := pjoin_eq hB hBlast
    (fname_head_ne_slash ".otu_table.100.denovo.rdp_assigned" hf1 (by decide))
  rw [e1, e2, e3]
  apply String.ext
  have l1 : ("/" : String).data = ['/'] := rfl
  have l2 : ("RDP" : String).data = ['R', 'D', 'P'] := rfl
  have l3 : ("/RDP/" : String).data = ['/', 'R', 'D', 'P', '/'] := rfl
  simp [String.data_append, List.append_assoc, l1, l2, l3]

/-- The metadata path built from a folder, flattened to the documented
template. -/
lemma metadata_path_eq {dir f : String} (hd0 : dir ≠ "")
    (hd1 : dir.toList.getLast? ≠ some '/') (hf0 : f ≠ "")
    (hf1 : f.toList.head? ≠ some '/') (hf2 : f.toList.getLast? ≠ some '/') :
    pjoin (pjoin dir f) (rsplitLeft f ++ ".metadata.txt") =
    dir ++ "/" ++ f ++ "/" ++ rsplitLeft f ++ ".metadata.txt" := by
  have e1 : pjoin dir f = dir ++ "/" ++ f := pjoin_eq hd0 hd1 hf1
  have hA : dir ++ "/" ++ f ≠ "" := append_ne_empty _ (append_ne_empty _ hd0)
  have hAlast : (dir ++ "/" ++ f).toList.getLast? ≠ some '/' := by
    rw [getLast?_append_str _ hf0]
    exact hf2
  have e2 := pjoin_eq hA hAlast
    (fname_head_ne_slash ".metadata.txt" hf1 (by decide))
  rw [e1, e2]
  apply String.ext
  have l1 : ("/" : String).data = ['/'] := rfl
  simp [String.data_append, List.append_assoc, l1]

lemma resolveOtu_folder {d n f : String} {e : Entry} (ho : e.otu_table = none)
    (hf : e.folder = some f) :
    resolveOtu d n e = .ok { e with otu_table := some (otuPath d f) } := by
  unfold resolveOtu
  rw [ho, hf]

lemma resolveMetadata_folder {d n f : String} {e : Entry}
    (hm : e.metadata_file = none) (hf : e.folder = some f) :
    resolveMetadata d n e = .ok { e with metadata_file := some (metaPath d f) } := by
  unfold resolveMetadata
  rw [hm, hf]

/-- **C2**: an entry with a `folder` and no explicit paths resolves to the
documented templates `<base>/<folder>/RDP/<pre>.otu_table.100.denovo.rdp_assigned`
and `<base>/<folder>/<pre>.metadata.txt`, where `<pre>` keeps everything
before the folder name's last underscore (the whole name when it has no
underscore). Stated for well-formed path pieces: non-empty base not ending
in a separator, non-empty folder neither starting nor ending in one. -/
theorem folder_path_template (dir name f : String) (e : Entry)
    (hfold : e.folder = some f) (hotu : e.otu_table = none)
    (hmeta : e.metadata_file = none) (hd0 : dir ≠ "")
    (hd1 : dir.toList.getLast? ≠ some '/') (hf0 : f ≠ "")
    (hf1 : f.toList.head? ≠ some '/') (hf2 : f.toList.getLast? ≠ some '/') :
    ∃ e' w, resolve_entry dir name e = .ok (e', w) ∧
      e'.otu_table = some (dir ++ "/" ++ f ++ "/RDP/" ++ rsplitLeft f ++
        ".otu_table.100.denovo.rdp_assigned") ∧
      e'.metadata_file =
        some (dir ++ "/" ++ f ++ "/" ++ rsplitLeft f ++ ".metadata.txt") ∧
      ('_' ∉ f.toList → rsplitLeft f = f) ∧
      ('_' ∈ f.toList →
        ∃ suf, f.toList = (rsplitLeft f).toList ++ '_' :: suf ∧ '_' ∉ suf) := by
  have h1 := resolveOtu_folder (d := dir) (n := name) hotu hfold
  have h2 := resolveMetadata_folder (d := dir) (n := name)
    (e := { e with otu_table := some (otuPath dir f) })
    (by simpa using hmeta) (by simpa using hfold)
  rcases h3 : resolveSummary dir name
      { e with otu_table := some (otuPath dir f),
               metadata_file := some (metaPath dir f) }
    with ⟨e3, w3⟩
  obtain ⟨-, ho3, hm3, -⟩ := resolveSummary_pair dir name h3
  refine ⟨applyDefaults e3, w3, ?_, ?_, ?_,
    fun h => rsplitLeft_no_underscore h, fun h => rsplitLeft_underscore h⟩
  · unfold resolve_entry
    rw [h1]
    dsimp only
    rw [h2]
    dsimp only
    rw [h3]
  · rw [(applyDefaults_spec e3).2.1, ho3]
    dsimp only
    rw [show otuPath dir f = pjoin (pjoin (pjoin dir f) "RDP")
      (rsplitLeft f ++ ".otu_table.100.denovo.rdp_assigned") from rfl]
    rw [otu_path_eq hd0 hd1 hf0 hf1 hf2]
  · rw [(applyDefaults_spec e3).2.2.1, hm3]
    dsimp only
    rw [show metaPath dir f = pjoin (pjoin dir f)
      (rsplitLeft f ++ ".metadata.txt") from rfl]
    rw [metadata_path_eq hd0 hd1 hf0 hf1 hf2]

/-- Closed instances of C2, for a folder with underscores and one
without. -/
theorem folder_path_template_witness :
    (∃ e' w, resolve_entry "data" "ds1" { folder := some "asd_results" } =
        .ok (e', w) ∧
      e'.otu_table = some ("data" ++ "/" ++ "asd_results" ++ "/RDP/" ++
        rsplitLeft "asd_results" ++ ".otu_table.100.denovo.rdp_assigned") ∧
      e'.metadata_file = some ("data" ++ "/" ++ "asd_results" ++ "/" ++
        rsplitLeft "asd_results" ++ ".metadata.txt") ∧
      ('_' ∉ "asd_results".toList → rsplitLeft "asd_results" = "asd_results") ∧
      ('_' ∈ "asd_results".toList → ∃ suf, "asd_results".toList =
        (rsplitLeft "asd_results").toList ++ '_' :: suf ∧ '_' ∉ suf)) ∧
    (∃ e' w, resolve_entry "data" "ds2" { folder := some "plain" } =
        .ok (e', w) ∧
      e'.otu_table = some ("data" ++ "/" ++ "plain" ++ "/RDP/" ++
        rsplitLeft "plain" ++ ".otu_table.100.denovo.rdp_assigned") ∧
      e'.metadata_file = some ("data" ++ "/" ++ "plain" ++ "/" ++
        rsplitLeft "plain" ++ ".metadata.txt") ∧
      ('_' ∉ "plain".toList → rsplitLeft "plain" = "plain") ∧
      ('_' ∈ "plain".toList → ∃ suf, "plain".toList =
        (rsplitLeft "plain").toList ++ '_' :: suf ∧ '_' ∉ suf)) :=
  ⟨folder_path_template "data" "ds1" "asd_results" { folder := some "asd_results" }
      rfl rfl rfl (by decide) (by decide) (by decide) (by decide) (by decide),
   folder_path_template "data" "ds2" "plain" { folder := some "plain" }
      rfl rfl rfl (by decide) (by decide) (by decide) (by decide) (by decide)⟩

/-- A dataset whose computed classes list has an empty control or disease
group makes its loop iteration raise the validation error. -/
lemma processDataset_empty_classes {α : Type} (raw2abun : α → α)
    (load : String → α × MetaTable) (d : String) {c0 c1 : List String}
    (hcl : get_classes (load d).2 = .ok [c0, c1]) (he : c0 = [] ∨ c1 = []) :
    processDataset raw2abun load d =
      .error ("Something wrong with " ++ d ++ " metadata.") := by
  unfold processDataset
  rcases hl : load d with ⟨df0, m⟩
  rw [hl] at hcl
  dsimp only at hcl
  dsimp only
  rw [hcl]
  dsimp only
  rcases he with he | he <;> simp [he]

/-- A failing dataset preceded by succeeding ones aborts the loop with its
own error, whatever comes after it in the list. -/
lemma readDfdictLoop_error {α : Type} (raw2abun : α → α)
    (load : String → α × MetaTable) (pre : List String) (d : String)
    (post : List String) (msg : String)
    (hpre : ∀ d' ∈ pre, ∃ b, processDataset raw2abun load d' = .ok b)
    (hd : processDataset raw2abun load d = .error msg) :
    readDfdictLoop raw2abun load (pre ++ d :: post) = .error msg := by
  induction pre with
  | nil =>
    rw [List.nil_append]
    unfold readDfdictLoop
    rw [hd]
  | cons p ps ih =>
    obtain ⟨b, hb⟩ := hpre p (by simp)
    rw [List.cons_append]
    unfold readDfdictLoop
    rw [hb]
    dsimp only
    rw [ih (fun d' hd' => hpre d' (by simp [hd']))]

/-- **C4**: if some dataset of the directory computes a classes list with an
empty control or disease group, and the datasets the scanner lists before it
process cleanly, the whole batch call returns that dataset's validation
error: no partial mapping is produced and the datasets after it are never
consulted. -/
theorem read_dfdict_data_aborts {α : Type} (raw2abun : α → α)
    (files : List String) (load : String → α × MetaTable)
    (pre post : List String) (d : String) (c0 c1 : List String)
    (hids : get_dataset_ids files = pre ++ d :: post)
    (hcl : get_classes (load d).2 = .ok [c0, c1])
    (hempty : c0 = [] ∨ c1 = [])
    (hpre : ∀ d' ∈ pre, ∃ b, processDataset raw2abun load d' = .ok b) :
    read_dfdict_data raw2abun files load =
      .error ("Something wrong with " ++ d ++ " metadata.") := by
  unfold read_dfdict_data
  rw [hids]
  exact readDfdictLoop_error raw2abun load pre d post _ hpre
    (processDataset_empty_classes raw2abun load d hcl hempty)

/-- Closed instance of C4: a directory whose one dataset has only control
labels aborts the batch call with the validation error. -/
theorem read_dfdict_data_aborts_witness :
    read_dfdict_data (fun u : Unit => u)
      ["A.otu_table.clean", "A.metadata.clean"]
      (fun _ => ((), { index := ["s1"], cols := [("DiseaseState", ["H"])] })) =
      .error ("Something wrong with " ++ "A" ++ " metadata.") :=
  read_dfdict_data_aborts (fun u : Unit => u)
    ["A.otu_table.clean", "A.metadata.clean"]
    (fun _ => ((), { index := ["s1"], cols := [("DiseaseState", ["H"])] }))
    [] [] "A" ["H"] [] (by rfl) (by rfl) (Or.inr rfl) (by simp)

end FileIO
